import Mathlib

/-!
Verification of the drf_openapi schema-generation core (entities.py) against its
natural-language specification.  The Python source is shallowly embedded below:
pure functions become Lean functions, Python exceptions become `Except`, Python
dicts become association lists, and Python string builtins are modelled by
structurally recursive Lean functions over `List Char`.
-/

namespace DrfOpenapi

/- ### Models of the Python string builtins used by the source.
   Python `str.split(sep)` for a one-character separator. -/

def splitAux (sep : Char) : List Char → List Char → List String
  | [], acc => [String.mk acc.reverse]
  | c :: cs, acc =>
    if c = sep then String.mk acc.reverse :: splitAux sep cs []
    else splitAux sep cs (c :: acc)

def splitChar (sep : Char) (s : String) : List String :=
  splitAux sep s.toList []

/-- Whitespace as recognised by Python `str.strip()` (the characters that occur
in version constraints). -/
def isPySpace (c : Char) : Bool :=
  c = ' ' || c = '\t' || c = '\n' || c = '\r'

/-- Model of Python `str.strip()`. -/
def stripStr (s : String) : String :=
  String.mk (((s.toList.dropWhile isPySpace).reverse.dropWhile isPySpace).reverse)

def lowerChar (c : Char) : Char :=
  if 'A' ≤ c ∧ c ≤ 'Z' then Char.ofNat (c.toNat + 32) else c

/-- Model of Python `str.lower()`. -/
def strLower (s : String) : String :=
  String.mk (s.toList.map lowerChar)

def joinWith (sep : String) : List String → String
  | [] => ""
  | [s] => s
  | s :: rest => s ++ sep ++ joinWith sep rest

def strLen (s : String) : Nat := s.toList.length

/-- Model of Python string slicing `s[n:]` (by code points). -/
def strDrop (s : String) (n : Nat) : String := String.mk (s.toList.drop n)

def charDigit (c : Char) : Option Nat :=
  if '0' ≤ c ∧ c ≤ '9' then some (c.toNat - '0'.toNat) else none

def readNatAux : List Char → Nat → Option Nat
  | [], acc => some acc
  | c :: cs, acc =>
    match charDigit c with
    | some d => readNatAux cs (acc * 10 + d)
    | none => none

def readNat (s : String) : Option Nat :=
  match s.toList with
  | [] => none
  | cs => readNatAux cs 0

/- ### The comparator expression evaluator (entities.py lines 22-83). -/

def stripTrailingZeros (l : List Nat) : List Nat :=
  (l.reverse.dropWhile (· = 0)).reverse

/-- Models the external pkg_resources.parse_version on release-only dotted
numeric version strings (the only version shapes the version maps and the
runtime versions of this system use): the list of numeric components, with
trailing zero components dropped so that equal releases compare equal. -/
def parse_versionL (cs : List Char) : List Nat :=
  stripTrailingZeros ((splitAux '.' cs []).map (fun t => (readNat t).getD 0))

def parse_version (s : String) : List Nat := parse_versionL s.toList

/-- Lexicographic comparison of numeric component lists; together with the
trailing-zero normalisation in `parse_versionL` this is the ordering of
pkg_resources version objects on release-only versions. -/
def lexCompare : List Nat → List Nat → Ordering
  | [], [] => .eq
  | [], _ :: _ => .lt
  | _ :: _, [] => .gt
  | a :: as, b :: bs =>
    if a < b then .lt else if b < a then .gt else lexCompare as bs

/-- The five comparison operators of VersionedSerializers.OPERATORS. -/
inductive Op : Type where
  | gt | lt | eq | ge | le
deriving DecidableEq

def applyOp : Op → List Nat → List Nat → Bool
  | .gt, a, b => lexCompare a b == .gt
  | .lt, a, b => lexCompare a b == .lt
  | .eq, a, b => lexCompare a b == .eq
  | .ge, a, b => !(lexCompare a b == .lt)
  | .le, a, b => !(lexCompare a b == .gt)

/-- The comparator-prefix cascade of VersionedSerializers.get (lines 61-73):
first the two-character slice of the clause is looked up in OPERATORS, then the
one-character slice, and otherwise the whole clause is an implicit equality.
The OPERATORS keys are exactly the five strings of `Op`, so the dictionary
lookups on the slices are compiled to this test on the leading characters;
the returned list is the remainder the source compares with. -/
def parseClause (cs : List Char) : Op × List Char :=
  match cs with
  | c1 :: c2 :: rest =>
    if c1 = '=' ∧ c2 = '=' then (.eq, rest)
    else if c1 = '>' ∧ c2 = '=' then (.ge, rest)
    else if c1 = '<' ∧ c2 = '=' then (.le, rest)
    else if c1 = '>' then (.gt, c2 :: rest)
    else if c1 = '<' then (.lt, c2 :: rest)
    else (.eq, cs)
  | [c1] =>
    if c1 = '>' then (.gt, [])
    else if c1 = '<' then (.lt, [])
    else (.eq, [c1])
  | [] => (.eq, [])

/-- One clause evaluated against the runtime version (the body of the inner
loop of VersionedSerializers.get).  An empty clause raises, as indexing
`distinct_version[0]` does in the source. -/
def evalClause (clause request_version : String) : Except String Bool :=
  match clause.toList with
  | [] => .error "IndexError: string index out of range"
  | cs =>
    let (operation, compare_with) := parseClause cs
    .ok (applyOp operation (parse_version request_version) (parse_versionL compare_with))

/-- The comma-split, whitespace-trimmed clause list of one VERSION_MAP entry
(line 58 of the source). -/
def entryClauses (allowed_version : String) : List String :=
  (splitChar ',' allowed_version).map stripStr

/-- The inner loop of VersionedSerializers.get (lines 59-77): `matched` is
assigned the result of each clause in turn, so the accumulator is discarded and
the last clause decides; a clause error propagates like the Python exception. -/
def clausesEval (clauses : List String) (request_version : String) : Except String Bool :=
  clauses.foldlM (fun _ clause => evalClause clause request_version) true

def constraintEval (allowed_version request_version : String) : Except String Bool :=
  clausesEval (entryClauses allowed_version) request_version

namespace VersionedSerializers

/-- VersionedSerializers.get (entities.py lines 55-82): scan the version map in
declaration order, return the first entry whose constraint evaluates true, and
otherwise raise ValueError carrying the requested version. -/
def get {α : Type} (version_map : List (String × α)) (request_version : String) :
    Except String α :=
  match version_map with
  | [] => .error ("Invalid request version " ++ request_version)
  | (allowed_version, schema) :: rest =>
    match constraintEval allowed_version request_version with
    | .error e => .error e
    | .ok matched => if matched then .ok schema else get rest request_version

end VersionedSerializers

/- ### The data model: serializer classes as introspectable descriptors.

A DRF serializer class is embedded as its introspectable surface: the ordered
field list (`serializer.fields.values()`), where each field carries the
attributes the source reads (`field_name`, `required`, `read_only`, `label`,
`help_text`) and a kind tag for exactly the `isinstance` distinctions the
source branches on (nested Serializer, HiddenField, DictField/JSONField,
ListSerializer-valued `many=True` field, anything else), plus the
`Meta.error_status_codes` mapping.  `AnySerializerClass` is the universe of
classes the generator can meet: plain Serializer subclasses, ListSerializer
subclasses, VersionedSerializers subclasses (a version map plus the class
docstring), and classes that are none of these. -/

mutual
inductive AnySerializerClass : Type where
  | serializer : SerializerClass → AnySerializerClass
  | listSerializer : AnySerializerClass
  | versioned : List (String × AnySerializerClass) → Option String → AnySerializerClass
  | other : AnySerializerClass

inductive SerializerClass : Type where
  | mk : List SField → List (Nat × String) → SerializerClass

inductive SField : Type where
  | mk : String → Bool → Bool → Option String → Option String → FieldKind → SField

inductive FieldKind : Type where
  | nested : SerializerClass → FieldKind
  | hiddenField : FieldKind
  | dictOrJson : FieldKind
  | listField : AnySerializerClass → FieldKind
  | generic : FieldKind
end

def SerializerClass.fields : SerializerClass → List SField
  | .mk fs _ => fs

def SerializerClass.error_status_codes : SerializerClass → List (Nat × String)
  | .mk _ m => m

def SField.field_name : SField → String
  | .mk n _ _ _ _ _ => n

def SField.required : SField → Bool
  | .mk _ r _ _ _ _ => r

def SField.read_only : SField → Bool
  | .mk _ _ ro _ _ _ => ro

def SField.label : SField → Option String
  | .mk _ _ _ lb _ _ => lb

def SField.help_text : SField → Option String
  | .mk _ _ _ _ ht _ => ht

def SField.kind : SField → FieldKind
  | .mk _ _ _ _ _ k => k

/-- The `isinstance(field, serializers.HiddenField)` test. -/
def isHiddenField (f : SField) : Bool :=
  match f.kind with
  | .hiddenField => true
  | _ => false

/- ### Schema fragments and compiled coreapi fields. -/

/-- A coreschema fragment as the source produces it: String/Integer fragments
for path variables (with title, description and optional regex pattern), the
empty-properties Object fragment of the fallback path, the Array fragment of
the ListSerializer branch, and the fragment delivered by the external
rest_framework field-to-schema introspector for everything else. -/
inductive Frag : Type where
  | stringSchema : String → String → Option String → Frag
  | integerSchema : String → String → Frag
  | objectSchema : String → String → Frag
  | arraySchema : Frag
  | introspected : String → Frag

/-- Models the external rest_framework generic field introspector at its
interface: one basic schema fragment per field. -/
def field_to_schema (field : SField) : Frag :=
  .introspected field.field_name

/-- A compiled coreapi.Field record. -/
structure FieldRec : Type where
  name : String
  location : String
  required : Bool
  schema : Frag
  description : Option String

/- ### Association-list model of Python dicts. -/

def assocLookup {α : Type} (k : String) : List (String × α) → Option α
  | [] => none
  | (k2, v) :: rest => if k = k2 then some v else assocLookup k rest

/-- Python `dict.update`: keys already present are overwritten in place, new
keys are appended in the order of the updating dict. -/
def dictUpdate {α : Type} (base upd : List (String × α)) : List (String × α) :=
  (base.map fun kv =>
    match assocLookup kv.1 upd with
    | some v2 => (kv.1, v2)
    | none => kv)
  ++ upd.filter (fun kv => (assocLookup kv.1 base).isNone)

/- ### OpenApiSchemaGenerator: views and the request-field derivation. -/

inductive PagerKind : Type where
  | pageNumber | limitOffset | cursor | otherPager

/-- A pagination class: its own superclass classification plus, for
ProxyPagination-style classes, the `default_pager` attribute. -/
structure PagerClass : Type where
  kind : PagerKind
  default_pager : Option PagerKind

/-- The attributes the source reads off a view method handler: the decorated
request/response serializer classes and the docstring. -/
structure MethodFunc : Type where
  request_serializer : Option AnySerializerClass
  response_serializer : Option AnySerializerClass
  doc : Option String

/-- One field of the Django model behind a view's queryset, at the interface
the source reads (verbose_name, help_text, primary_key, AutoField-ness). -/
structure ModelField : Type where
  verbose_name : String
  help_text : String
  primary_key : Bool
  auto_field : Bool

/-- The surface of a view object that the generator reads.  An attribute that
may be absent or set to None is a double Option: the outer layer is `hasattr`,
the inner layer the attribute's value.  The field lists delivered by the
external pagination/filter collaborators and the strings delivered by the
external description/encoding collaborators are carried as data. -/
structure View : Type where
  exclude_from_schema : Bool
  has_permission : Bool
  action : Option String
  methodFuncs : List (String × MethodFunc)
  serializer_class : Option (Option AnySerializerClass)
  get_serializer_class : Option (Option AnySerializerClass)
  pagination_class : Option PagerClass
  paginationFields : List FieldRec
  filterFields : List FieldRec
  encoding : String
  description : String
  model : Option (List (String × ModelField))
  lookup_field : String
  lookup_value_regex : Option String

namespace OpenApiSchemaGenerator

/-- The view-level fallback of OpenApiSchemaGenerator.get_serializer_class
(lines 286-292): the `serializer_class` attribute first, then the
`get_serializer_class()` method. -/
def viewSerializerFallback (view : View) : Option AnySerializerClass :=
  match view.serializer_class with
  | some v => v
  | none =>
    match view.get_serializer_class with
    | some v => v
    | none => none

/-- OpenApiSchemaGenerator.get_serializer_class (lines 278-292): the method's
`request_serializer` attribute wins; otherwise fall back to the view. -/
def get_serializer_class (view : View) (method_func : Option MethodFunc) :
    Option AnySerializerClass :=
  match method_func with
  | some mf =>
    match mf.request_serializer with
    | some c => some c
    | none => viewSerializerFallback view
  | none => viewSerializerFallback view

/-- OpenApiSchemaGenerator.fallback_schema_from_field (lines 294-308): a bare
object fragment for DictField/JSONField, nothing otherwise. -/
def fallback_schema_from_field (field : SField) : Option Frag :=
  let title := (field.label).getD ""
  let descr := (field.help_text).getD ""
  match field.kind with
  | .dictOrJson => some (.objectSchema title descr)
  | _ => none

/-- The loop body of OpenApiSchemaGenerator.get_serializer_fields (lines
339-354): skip read-only and hidden fields; `required` is the declared flag
conjoined with the method not being PATCH; the schema is the fallback fragment
when there is one and the introspected fragment otherwise. -/
def serializerFieldOf (location method : String) (field : SField) : Option FieldRec :=
  if field.read_only || isHiddenField field then none
  else
    let required := field.required && !(method == "PATCH")
    let descr := field.help_text
    let fallback := fallback_schema_from_field field
    some { name := field.field_name, location := location, required := required,
           schema := fallback.getD (field_to_schema field), description := descr }

/-- OpenApiSchemaGenerator.get_serializer_fields (lines 310-356). -/
def get_serializer_fields (method : String) (view : View)
    (method_func : Option MethodFunc) : List FieldRec :=
  let location := if method = "PUT" ∨ method = "PATCH" ∨ method = "POST"
                  then "form" else "query"
  match get_serializer_class view method_func with
  | none => []
  | some serializer_class =>
    match serializer_class with
    | .listSerializer =>
      [{ name := "data", location := location, required := true,
         schema := .arraySchema, description := none }]
    | .serializer cls => cls.fields.filterMap (serializerFieldOf location method)
    | _ => []

end OpenApiSchemaGenerator

/- ### Response schema composition (entities.py lines 358-412). -/

/-- A value of the `properties` map of a composed response schema: either a
plain coreschema fragment contributed by a flat field, or a spliced nested
sub-schema (its own `properties` map, always object-typed) onto which the
nesting field's help text has been written as `description`. -/
inductive PropVal : Type where
  | frag : Frag → PropVal
  | nestedObj : List (String × PropVal) → Option String → PropVal

/-- Modelled from the spec: the parameter-extraction collaborator
(drf_openapi.codec, whose source is not under src).  Given an ordered field
list it returns an object-typed schema fragment with a properties map, or
nothing if the list is empty. -/
def get_parameters (fields : List FieldRec) :
    Option (List (String × PropVal)) :=
  match fields with
  | [] => none
  | _ => some (fields.map fun f => (f.name, PropVal.frag f.schema))

/-- The composed response: `none` is the empty dict of the empty-response case,
otherwise the description together with the object schema's properties map. -/
def ResponseObject : Type :=
  Option (Option String × List (String × PropVal)) × List (Nat × String)

mutual

/-- OpenApiSchemaGenerator.get_response_object (lines 358-412): run the field
loop, extract the flat object schema, and when that extraction yields nothing
return the nested-only or fully-empty result with an empty error map; only in
the non-empty case are the nested sub-schemas merged into the properties map
(nested entries merged last) and the Meta error-status codes collected. -/
def get_response_object : SerializerClass → Option String → ResponseObject
  | .mk fieldList meta, description =>
    let r := responseFieldLoop fieldList
    match get_parameters r.1 with
    | none =>
      if r.2.isEmpty then (none, [])
      else (some (description, r.2), [])
    | some props => (some (description, dictUpdate props r.2), meta)

/-- The field loop of get_response_object (lines 364-382), returning the flat
coreapi field list and the `nested_obj` map in iteration order: a field whose
kind is a nested serializer is recursively composed and, when its schema is
non-empty, spliced into `nested_obj` with the field's help text as description
and excluded from the flat list; every other field — hidden, read-only or not —
lands in the flat list with its fallback-or-introspected fragment. -/
def responseFieldLoop : List SField → List FieldRec × List (String × PropVal)
  | [] => ([], [])
  | SField.mk nm rq ro lb ht kd :: rest =>
    let r := responseFieldLoop rest
    let field : SField := .mk nm rq ro lb ht kd
    let flatRec : FieldRec :=
      { name := nm, location := "form", required := rq,
        schema := (OpenApiSchemaGenerator.fallback_schema_from_field field).getD
          (field_to_schema field),
        description := none }
    match kd with
    | .nested sub =>
      match (get_response_object sub none).1 with
      | some (_, subprops) => (r.1, (nm, PropVal.nestedObj subprops ht) :: r.2)
      | none => (flatRec :: r.1, r.2)
    | _ => (flatRec :: r.1, r.2)

end

/- ### Pagination shape synthesis (entities.py lines 205-229). -/

namespace OpenApiSchemaGenerator

/-- OpenApiSchemaGenerator.get_paginator_serializer (lines 205-229): the fake
list serializers, with the `results` list-of-child field always present, the
`next`/`previous` URL fields for page-number, offset-limit and cursor pagers,
and the `count` integer field for page-number and offset-limit pagers; a
ProxyPagination-style class is classified by its `default_pager`. -/
def get_paginator_serializer (view : View) (child_serializer_class : AnySerializerClass) :
    SerializerClass :=
  let results : SField := .mk "results" true false none none (.listField child_serializer_class)
  let nextF : SField := .mk "next" true false none none .generic
  let previousF : SField := .mk "previous" true false none none .generic
  let countF : SField := .mk "count" true false none none .generic
  let baseFakeListSerializer : SerializerClass := .mk [results] []
  let fakePrevNextListSerializer : SerializerClass := .mk [results, nextF, previousF] []
  let fakeListSerializer : SerializerClass := .mk [results, nextF, previousF, countF] []
  match view.pagination_class with
  | none => baseFakeListSerializer
  | some pagination_class =>
    let pager := (pagination_class.default_pager).getD pagination_class.kind
    match pager with
    | .pageNumber => fakeListSerializer
    | .limitOffset => fakeListSerializer
    | .cursor => fakePrevNextListSerializer
    | .otherPager => baseFakeListSerializer

end OpenApiSchemaGenerator

/-- The declared field names of a serializer class, in declaration order. -/
def serializerFieldNames (cls : SerializerClass) : List String :=
  cls.fields.map SField.field_name

/- ### Path fields (entities.py lines 231-276). -/

/-- Modelled from the interface of the external uritemplate library: the
template variable names appearing between braces, in order of appearance. -/
def uritemplateVarsAux : List Char → Option (List Char) → List String
  | [], _ => []
  | c :: cs, none =>
    if c = '\x7b' then uritemplateVarsAux cs (some [])
    else uritemplateVarsAux cs none
  | c :: cs, some acc =>
    if c = '\x7d' then String.mk acc.reverse :: uritemplateVarsAux cs none
    else uritemplateVarsAux cs (some (c :: acc))

def uritemplateVariables (path : String) : List String :=
  uritemplateVarsAux path.toList none

/-- Modelled from the interface of the external rest_framework helper
get_pk_description: a human description for a primary-key path variable. -/
def get_pk_description (pathVar : String) : String :=
  "A unique integer value identifying this " ++ pathVar ++ "."

namespace OpenApiSchemaGenerator

/-- OpenApiSchemaGenerator.get_path_fields (lines 231-276): one required
path-located field per template variable other than the reserved `version`,
with title/description inferred from the model field when the queryset's model
exposes one, a regex pattern when the view declares a lookup-value pattern for
its lookup field, and an integer schema for AutoField model fields. -/
def get_path_fields (path method : String) (view : View) : List FieldRec :=
  (uritemplateVariables path).filterMap fun pathVar =>
    if pathVar = "version" then none
    else
      let model_field := (view.model).bind (assocLookup pathVar)
      let title := match model_field with
        | some mf => mf.verbose_name
        | none => ""
      let descr := match model_field with
        | some mf =>
          if mf.help_text ≠ "" then mf.help_text
          else if mf.primary_key then get_pk_description pathVar else ""
        | none => ""
      let schemaF : Frag :=
        match view.model with
        | none => .stringSchema title descr none
        | some _ =>
          if (view.lookup_value_regex).isSome ∧ view.lookup_field = pathVar then
            .stringSchema title descr view.lookup_value_regex
          else
            match model_field with
            | some mf =>
              if mf.auto_field then .integerSchema title descr
              else .stringSchema title descr none
            | none => .stringSchema title descr none
      some { name := pathVar, location := "path", required := true,
             schema := schemaF, description := none }

/-- OpenApiSchemaGenerator.get_serializer_doc (lines 146-153): each docstring
line stripped of surrounding whitespace, re-joined with newlines; the empty
string when there is no docstring. -/
def get_serializer_doc (doc : Option String) : String :=
  match doc with
  | none => ""
  | some d => joinWith "\n" ((splitChar '\n' d).map stripStr)

end OpenApiSchemaGenerator

/- ### The compiled link and the generator (entities.py lines 86-109, 155-203,
435-461). -/

structure Generator : Type where
  version : String
  title : Option String
  url : Option String
  description : Option String

/-- An OpenApiLink record: the coreapi link data plus the response schema and
the error-status-code map. -/
structure OpenApiLink : Type where
  response_schema : Option (Option String × List (String × PropVal))
  error_status_codes : List (Nat × String)
  url : String
  action : String
  encoding : Option String
  fields : List FieldRec
  description : String

def versionTemplateChars : List Char := "\x7bversion\x7d".toList

/-- Model of `path.replace('\x7bversion\x7d', self.version)` (line 198). -/
def replaceVersionScan (v : List Char) : List Char → List Char
  | c0 :: c1 :: c2 :: c3 :: c4 :: c5 :: c6 :: c7 :: c8 :: rest =>
    if [c0, c1, c2, c3, c4, c5, c6, c7, c8] = versionTemplateChars then
      v ++ replaceVersionScan v rest
    else c0 :: replaceVersionScan v (c1 :: c2 :: c3 :: c4 :: c5 :: c6 :: c7 :: c8 :: rest)
  | [] => []
  | c0 :: r0 => c0 :: replaceVersionScan v r0

def replaceVersion (path version : String) : String :=
  String.mk (replaceVersionScan version.toList path.toList)

namespace OpenApiSchemaGenerator

/-- OpenApiSchemaGenerator.get_link (lines 155-203).  Exceptions escaping the
Python body — the ValueError of version resolution on the response serializer
and the attribute errors of composing a response from a class that is not a
plain serializer — become the error case. -/
def get_link (gen : Generator) (path method : String) (view : View)
    (version : String) : Except String OpenApiLink :=
  let method_name := match view.action with
    | some a => a
    | none => strLower method
  let method_func := assocLookup method_name view.methodFuncs
  let fields :=
    get_path_fields path method view
    ++ get_serializer_fields method view method_func
    ++ view.paginationFields ++ view.filterFields
  let encoding :=
    if (¬ fields.isEmpty) ∧ fields.any (fun f => f.location = "form" ∨ f.location = "body")
    then some view.encoding else none
  let descr0 := view.description
  let descr1 := match method_func with
    | some mf =>
      match mf.request_serializer with
      | some (.versioned _ rdoc) =>
        let request_doc := get_serializer_doc rdoc
        if request_doc ≠ "" then
          descr0 ++ "\n\n**Request Description:**\n" ++ request_doc
        else descr0
      | _ => descr0
    | none => descr0
  let resolved : Except String (String × Option AnySerializerClass) :=
    match method_func with
    | some mf =>
      match mf.response_serializer with
      | some (.versioned vmap rdoc) =>
        let res_doc := get_serializer_doc rdoc
        let descr2 := if res_doc ≠ "" then
            descr1 ++ "\n\n**Response Description:**\n" ++ res_doc
          else descr1
        match VersionedSerializers.get vmap version with
        | .error e => .error e
        | .ok c => .ok (descr2, some c)
      | some c => .ok (descr1, some c)
      | none => .ok (descr1, none)
    | none => .ok (descr1, none)
  match resolved with
  | .error e => .error e
  | .ok (descr2, rsc0) =>
    let rsc1 : Option AnySerializerClass :=
      match rsc0 with
      | some c => some c
      | none =>
        if method_name = "list" ∨ method_name = "retrieve" then
          let base := match view.get_serializer_class with
            | some v => v
            | none =>
              match view.serializer_class with
              | some v => v
              | none => none
          match base with
          | some c =>
            if method_name = "list" then
              some (.serializer (get_paginator_serializer view c))
            else some c
          | none => none
        else none
    let respRes : Except String ResponseObject :=
      match rsc1 with
      | some rsc =>
        match method_func with
        | none => .error "AttributeError: NoneType object has no attribute doc"
        | some mf =>
          match rsc with
          | .serializer cls => .ok (get_response_object cls mf.doc)
          | _ => .error "AttributeError: object has no attribute fields"
      | none => .ok (none, [])
    match respRes with
    | .error e => .error e
    | .ok res =>
      .ok { response_schema := res.1
            error_status_codes := res.2
            url := replaceVersion path gen.version
            action := strLower method
            encoding := encoding
            fields := fields
            description := descr2 }

end OpenApiSchemaGenerator

/- ### Path tree assembly (entities.py lines 111-144). -/

/-- The link tree: internal nodes keyed by path segment, leaves holding one
compiled link (the external LinkNode dict structure at its interface). -/
inductive LinkNode : Type where
  | node : List (String × LinkNode) → LinkNode
  | leaf : OpenApiLink → LinkNode

def setAssoc (m : List (String × LinkNode)) (k : String) (v : LinkNode) :
    List (String × LinkNode) :=
  match m with
  | [] => [(k, v)]
  | (k2, v2) :: rest =>
    if k = k2 then (k2, v) :: rest else (k2, v2) :: setAssoc rest k v

/-- Modelled from the interface of the external rest_framework insert_into
helper: walk the key path creating intermediate nodes, write the link at the
final key, and raise on a collision where an intermediate position already
holds a link. -/
def insert_into (tree : LinkNode) (keys : List String) (link : OpenApiLink) :
    Except String LinkNode :=
  match tree, keys with
  | .leaf _, _ => .error "TypeError: keys collide with an existing link"
  | .node _, [] => .error "TypeError: empty key path"
  | .node m, [k] => .ok (.node (setAssoc m k (.leaf link)))
  | .node m, k :: k2 :: rest =>
    let child := (assocLookup k m).getD (.node [])
    match insert_into child (k2 :: rest) link with
    | .error e => .error e
    | .ok c => .ok (.node (setAssoc m k c))

/-- Modelled from the spec: the external key derivation for tree insertion —
the subpath's non-empty, non-templated segments followed by the method key at
the leaf. -/
def get_keys (subpath method : String) : List String :=
  ((splitChar '/' subpath).filter
    (fun s => s ≠ "" ∧ ¬ (s.toList.contains '\x7b'))) ++ [strLower method]

def commonSegs : List String → List String → List String
  | a :: as, b :: bs => if a = b then a :: commonSegs as bs else []
  | _, _ => []

/-- Modelled from the spec: the longest common path root across the candidate
paths — the common leading segment sequence (the external base generator
computes this path root, which get_links strips from each path). -/
def commonPathRoot (paths : List String) : String :=
  match paths.map (splitChar '/') with
  | [] => ""
  | s :: rest => joinWith "/" (rest.foldl commonSegs s)

/-- Modelled from the interface of the external base generator path coercion
step: the coerced path (the coercion details live outside this package). -/
def coerce_path (path : String) : String := path

namespace OpenApiSchemaGenerator

/-- The per-endpoint loop of OpenApiSchemaGenerator.get_links (lines 134-144):
permission-failing routes are skipped; the link is constructed OUTSIDE the
try block, so a link-construction exception propagates; only insert_into is
guarded, an insertion failure dropping that one link and continuing. -/
def get_links_loop (gen : Generator) (pathRoot version : String) :
    List (String × String × View) → LinkNode → Except String LinkNode
  | [], links => .ok links
  | (path, method, view) :: rest, links =>
    if ¬ view.has_permission then get_links_loop gen pathRoot version rest links
    else
      match get_link gen path method view version with
      | .error e => .error e
      | .ok link =>
        let subpath := strDrop path (strLen pathRoot)
        let keys := get_keys subpath method
        match insert_into links keys link with
        | .error _ => get_links_loop gen pathRoot version rest links
        | .ok links2 => get_links_loop gen pathRoot version rest links2

/-- OpenApiSchemaGenerator.get_links (lines 111-144): drop routes excluded
from the schema, return None when no path remains, otherwise strip the common
path root and run the insertion loop. -/
def get_links (gen : Generator) (endpoints : List (String × String × View))
    (version : String) : Except String (Option LinkNode) :=
  let view_endpoints := endpoints.filterMap fun e =>
    if e.2.2.exclude_from_schema then none
    else some (coerce_path e.1, e.2.1, e.2.2)
  let paths := view_endpoints.map (·.1)
  match paths with
  | [] => .ok none
  | _ =>
    let pathRoot := commonPathRoot paths
    match get_links_loop gen pathRoot version view_endpoints (.node []) with
    | .error e => .error e
    | .ok links => .ok (some links)

end OpenApiSchemaGenerator

/- ### Specification-side definitions used to state refinement claims. -/

/-- Follows the spec's words: the strict numeric semantic-version order on
parsed component lists — a shorter list precedes any extension of it, and
otherwise the first numerically differing component decides. -/
inductive SpecVersionLt : List Nat → List Nat → Prop where
  | nil {b : Nat} {bs : List Nat} : SpecVersionLt [] (b :: bs)
  | head {a b : Nat} {as bs : List Nat} : a < b → SpecVersionLt (a :: as) (b :: bs)
  | tail {a : Nat} {as bs : List Nat} :
      SpecVersionLt as bs → SpecVersionLt (a :: as) (a :: bs)

/- ### Concrete instances used by counterexamples and witnesses. -/

/-- A view carrying no serializer, pagination, filter or model metadata. -/
def plainView : View :=
  { exclude_from_schema := false, has_permission := true, action := none,
    methodFuncs := [], serializer_class := none, get_serializer_class := none,
    pagination_class := none, paginationFields := [], filterFields := [],
    encoding := "", description := "", model := none, lookup_field := "",
    lookup_value_regex := none }

/-- A view whose GET handler declares a version-mapped response serializer
family whose single entry requires a version above 2.0. -/
def failingView : View :=
  { plainView with
    methodFuncs := [("get", ⟨none, some (.versioned [(">2.0", .other)] none), none⟩)] }

def exGen : Generator := ⟨"1.0", none, none, none⟩

/-- Two routes; the first one's link construction fails at version resolution. -/
def exFailEndpoints : List (String × String × View) :=
  [("/api/x/", "GET", failingView), ("/api/y/", "GET", plainView)]

/-- Two routes whose derived key paths collide in the link tree: the second
route's key path descends through the leaf written by the first. -/
def exCollideEndpoints : List (String × String × View) :=
  [("/api/a/", "GET", plainView), ("/api/a/get/", "GET", plainView)]

/-- A serializer whose only declared field is a nested serializer, and which
declares one error status code on its Meta block. -/
def nestedOnlyCls : SerializerClass :=
  .mk [.mk "child" true false none none
        (.nested (.mk [.mk "x" true false none none .generic] []))]
     [(400, "Bad Request")]

/-- A one-field plain serializer. -/
def oneFieldCls : SerializerClass := .mk [.mk "x" true false none none .generic] []

/-- A version map with a single entry mapping versions above 1.0 to a plain
serializer with one declared field. -/
def exRequestMap : List (String × AnySerializerClass) :=
  [(">1.0", .serializer oneFieldCls)]

/-- A handler declaring `exRequestMap` as its version-mapped request
serializer family. -/
def exRequestMf : MethodFunc := ⟨some (.versioned exRequestMap none), none, none⟩

/-- A serializer with one read-only field, declared required. -/
def readOnlyCls : SerializerClass :=
  .mk [.mk "secret" true true none none .generic] [(404, "nope")]

/- ### Helper lemmas. -/

theorem lexCompare_gt_iff (a b : List Nat) :
    lexCompare a b = .gt ↔ SpecVersionLt b a := by
  induction a generalizing b with
  | nil =>
    cases b with
    | nil => simp [lexCompare]; intro h; cases h
    | cons y ys => simp [lexCompare]; intro h; cases h
  | cons x xs ih =>
    cases b with
    | nil => simp [lexCompare]; exact SpecVersionLt.nil
    | cons y ys =>
      simp only [lexCompare]
      rcases Nat.lt_trichotomy x y with hlt | heq | hgt
      · simp [hlt, Nat.not_lt.mpr (Nat.le_of_lt hlt)]
        intro h
        cases h with
        | head h2 => omega
        | tail h2 => omega
      · subst heq
        simp [Nat.lt_irrefl]
        rw [ih ys]
        constructor
        · exact SpecVersionLt.tail
        · intro h
          cases h with
          | head h2 => omega
          | tail h2 => exact h2
      · simp [Nat.not_lt.mpr (Nat.le_of_lt hgt), hgt]
        exact SpecVersionLt.head hgt

theorem assocLookup_eq_none_of_not_mem {α : Type} (k : String)
    (l : List (String × α)) (h : k ∉ l.map Prod.fst) : assocLookup k l = none := by
  induction l with
  | nil => rfl
  | cons p rest ih =>
    simp only [List.map_cons, List.mem_cons] at h
    push_neg at h
    rw [assocLookup, if_neg h.1]
    exact ih h.2

theorem dictUpdate_keys {α : Type} (base upd : List (String × α)) (k : String)
    (h : k ∈ base.map Prod.fst ∨ k ∈ upd.map Prod.fst) :
    k ∈ (dictUpdate base upd).map Prod.fst := by
  have hbase : (base.map fun kv =>
      match assocLookup kv.1 upd with
      | some v2 => (kv.1, v2)
      | none => kv).map Prod.fst = base.map Prod.fst := by
    rw [List.map_map]
    apply List.map_congr_left
    intro kv _
    rcases hkv : assocLookup kv.1 upd with _ | v2 <;> simp [hkv]
  rcases h with h | h
  · unfold dictUpdate
    rw [List.map_append, hbase]
    exact List.mem_append_left _ h
  · by_cases hb : k ∈ base.map Prod.fst
    · unfold dictUpdate
      rw [List.map_append, hbase]
      exact List.mem_append_left _ hb
    · unfold dictUpdate
      rw [List.map_append, hbase]
      apply List.mem_append_right
      rcases List.mem_map.mp h with ⟨p, hp, hpk⟩
      apply List.mem_map.mpr
      refine ⟨p, List.mem_filter.mpr ⟨hp, ?_⟩, hpk⟩
      subst hpk
      rw [assocLookup_eq_none_of_not_mem _ _ hb]
      rfl

/- ### Claim theorems. -/

/-- Claim C1: version resolution is claimed to return the first entry all of
whose comma-separated clauses hold (AND-combined), so that on the map
((">1.3,<=1.6", A), (">1.6", B)) version "1.5" resolves to A, "1.7" to B and
"1.3" raises the no-matching-version error.  The code instead lets each
clause's result overwrite the matched flag, so only the last clause of an
entry decides: "1.5" and "1.7" behave as claimed, but for "1.3" the first
clause ">1.3" is false while the last clause "<=1.6" is true, and the code
returns A instead of raising — contradicting the class docstring's
"evaluated as AND". -/
theorem C1_resolution_last_clause_decides :
    VersionedSerializers.get [(">1.3,<=1.6", "A"), (">1.6", "B")] "1.5" = .ok "A" ∧
    VersionedSerializers.get [(">1.3,<=1.6", "A"), (">1.6", "B")] "1.7" = .ok "B" ∧
    evalClause ">1.3" "1.3" = .ok false ∧
    VersionedSerializers.get [(">1.3,<=1.6", "A"), (">1.6", "B")] "1.3" = .ok "A" :=
  ⟨rfl, rfl, rfl, rfl⟩

/-- Claim C5: clause parsing first reads a two-character comparator prefix,
then a one-character comparator prefix, and otherwise treats the whole clause
as an implicit equality against a bare version; "==1.0" and "1.0" evaluate
true against "1.0", ">=1.0" evaluates true against "1.0", and "<1.0"
evaluates false against "1.0". -/
theorem C5_comparator_parsing_order :
    (∀ (v : List Char) (rv : String),
      evalClause (String.mk ('=' :: '=' :: v)) rv =
        .ok (applyOp .eq (parse_version rv) (parse_versionL v))) ∧
    (∀ (v : List Char) (rv : String),
      evalClause (String.mk ('>' :: '=' :: v)) rv =
        .ok (applyOp .ge (parse_version rv) (parse_versionL v))) ∧
    (∀ (v : List Char) (rv : String),
      evalClause (String.mk ('<' :: '=' :: v)) rv =
        .ok (applyOp .le (parse_version rv) (parse_versionL v))) ∧
    (∀ (v : List Char) (rv : String), v.head? ≠ some '=' →
      evalClause (String.mk ('>' :: v)) rv =
        .ok (applyOp .gt (parse_version rv) (parse_versionL v))) ∧
    (∀ (v : List Char) (rv : String), v.head? ≠ some '=' →
      evalClause (String.mk ('<' :: v)) rv =
        .ok (applyOp .lt (parse_version rv) (parse_versionL v))) ∧
    (∀ (c : Char) (cs : List Char) (rv : String),
      c ≠ '>' → c ≠ '<' → ¬(c = '=' ∧ cs.head? = some '=') →
      evalClause (String.mk (c :: cs)) rv =
        .ok (applyOp .eq (parse_version rv) (parse_versionL (c :: cs)))) ∧
    evalClause "==1.0" "1.0" = .ok true ∧
    evalClause "1.0" "1.0" = .ok true ∧
    evalClause ">=1.0" "1.0" = .ok true ∧
    evalClause "<1.0" "1.0" = .ok false := by
  refine ⟨?_, ?_, ?_, ?_, ?_, ?_, rfl, rfl, rfl, rfl⟩
  · intro v rv; rfl
  · intro v rv; rfl
  · intro v rv; rfl
  · intro v rv hv
    cases v with
    | nil => rfl
    | cons c2 rest =>
      simp only [List.head?, ne_eq, Option.some.injEq] at hv
      simp [evalClause, parseClause, hv]
  · intro v rv hv
    cases v with
    | nil => rfl
    | cons c2 rest =>
      simp only [List.head?, ne_eq, Option.some.injEq] at hv
      simp [evalClause, parseClause, hv]
  · intro c cs rv hgt hlt heq
    cases cs with
    | nil =>
      simp [evalClause, parseClause, hgt, hlt]
    | cons c2 rest =>
      have h2 : ¬(c = '=' ∧ c2 = '=') := by
        intro hc; exact heq ⟨hc.1, by simp [hc.2]⟩
      simp [evalClause, parseClause, hgt, hlt, h2]

/-- Claim C5 witness: the one-character comparator conjunct applied to the
clause ">2.10" (a clause with no two-character comparator prefix). -/
theorem C5_comparator_parsing_order_witness :
    evalClause (String.mk ('>' :: "2.10".toList)) "2.9" =
      .ok (applyOp .gt (parse_version "2.9") (parse_versionL "2.10".toList)) :=
  C5_comparator_parsing_order.2.2.2.1 "2.10".toList "2.9" (by decide)

/-- Claim C6: clause evaluation orders versions by numeric components, not
lexicographically: the greater-than operator holds exactly when the runtime
version's parsed component list is numerically-lexicographically above the
target's, and in particular ">1.9" evaluates true against "1.10". -/
theorem C6_numeric_version_comparison :
    (∀ a b : List Nat, applyOp .gt a b = true ↔ SpecVersionLt b a) ∧
    evalClause ">1.9" "1.10" = .ok true := by
  constructor
  · intro a b
    have hb : applyOp .gt a b = (lexCompare a b == Ordering.gt) := rfl
    rw [hb]
    rcases hc : lexCompare a b with _ | _ | _ <;>
      simp only [← lexCompare_gt_iff a b, hc] <;> decide
  · rfl

/-- Claim C7: when no version-map entry's constraint evaluates true against
the runtime version, resolution returns the invalid-request-version error
carrying the requested version string — never a descriptor. -/
theorem C7_no_match_raises (α : Type) (vm : List (String × α)) (rv : String)
    (h : ∀ p ∈ vm, constraintEval p.1 rv = .ok false) :
    VersionedSerializers.get vm rv = .error ("Invalid request version " ++ rv) := by
  induction vm with
  | nil => rfl
  | cons p rest ih =>
    have hp := h p (List.mem_cons_self p rest)
    rcases p with ⟨allowed, schema⟩
    simp only [VersionedSerializers.get, hp]
    exact ih fun q hq => h q (List.mem_cons_of_mem _ hq)

/-- Claim C7 witness: a one-entry map whose constraint ">2.0" fails against
"1.0" yields the error carrying "1.0". -/
theorem C7_no_match_raises_witness :
    (∀ p ∈ [((">2.0" : String), (0 : Nat))], constraintEval p.1 "1.0" = .ok false) ∧
    VersionedSerializers.get [((">2.0" : String), (0 : Nat))] "1.0" =
      .error "Invalid request version 1.0" := by
  have h : ∀ p ∈ [((">2.0" : String), (0 : Nat))], constraintEval p.1 "1.0" = .ok false := by
    intro p hp
    rw [List.mem_singleton] at hp
    subst hp
    rfl
  exact ⟨h, C7_no_match_raises Nat _ _ h⟩

/-- Claim C2 counterexample: a response serializer whose only field is a
nested serializer and whose Meta block declares the error status code 400.
The composed response schema is non-empty (it consists of the nested
sub-schema), yet the returned error map is empty — the declared error-status
metadata is not collected, contradicting the claim that collection happens
regardless of the schema consisting only of nested sub-schemas. -/
theorem C2_error_map_counterexample :
    SerializerClass.error_status_codes nestedOnlyCls = [(400, "Bad Request")] ∧
    (get_response_object nestedOnlyCls (some "desc")).1 =
      some (some "desc",
        [("child", PropVal.nestedObj [("x", PropVal.frag (Frag.introspected "x"))] none)]) ∧
    (get_response_object nestedOnlyCls (some "desc")).2 = [] :=
  ⟨rfl, rfl, rfl⟩

/-- Claim C2 amended: response composition collects the descriptor's declared
error-status metadata into the error map only when the flat-field extraction
yields a non-empty schema; when the composed schema is empty or consists only
of nested sub-schemas, the returned error map is empty. -/
theorem C2_error_map_only_with_flat_schema (cls : SerializerClass) (d : Option String) :
    (get_response_object cls d).2 =
      if (responseFieldLoop cls.fields).1.isEmpty then []
      else cls.error_status_codes := by
  rcases cls with ⟨fieldList, meta⟩
  show (get_response_object (.mk fieldList meta) d).2 = _
  rw [get_response_object]
  rcases hr : responseFieldLoop fieldList with ⟨flat, nested⟩
  rcases flat with _ | ⟨f, fs⟩
  · simp only [get_parameters, SerializerClass.fields, hr, List.isEmpty_nil, if_true]
    rcases nested with _ | ⟨n, ns⟩ <;> rfl
  · simp only [get_parameters, SerializerClass.fields, hr, SerializerClass.error_status_codes,
      List.isEmpty_cons, if_false]
    rfl

/-- Claim C3 counterexample: a handler declaring a version-mapped request
descriptor family whose resolution at version "2.0" yields a plain serializer
with one declared field.  The claim says the body/query fields appended to the
link are derived from that resolved descriptor, but the code passes the family
class itself to field derivation (no version resolution), and since the family
is not itself a serializer, the derived field list is empty. -/
theorem C3_request_fields_counterexample :
    OpenApiSchemaGenerator.get_serializer_fields "POST" plainView (some exRequestMf) = [] ∧
    VersionedSerializers.get exRequestMap "2.0" = .ok (.serializer oneFieldCls) ∧
    oneFieldCls.fields ≠ [] := by
  refine ⟨rfl, rfl, ?_⟩
  simp [oneFieldCls, SerializerClass.fields]

/-- Claim C3 amended: body/query fields are located at `form` for the mutating
methods PUT, PATCH and POST and at `query` otherwise, but they are derived
from the declared request descriptor class without version resolution; when
the handler declares a version-mapped request descriptor family, that family
class is not itself a data-shape descriptor and the derived field list is
empty. -/
theorem C3_request_fields_unresolved :
    (∀ (method : String) (view : View) (mf : MethodFunc)
       (vmap : List (String × AnySerializerClass)) (doc : Option String),
      mf.request_serializer = some (.versioned vmap doc) →
      OpenApiSchemaGenerator.get_serializer_fields method view (some mf) = []) ∧
    (∀ (method : String) (view : View) (mfo : Option MethodFunc) (f : FieldRec),
      f ∈ OpenApiSchemaGenerator.get_serializer_fields method view mfo →
      f.location =
        if method = "PUT" ∨ method = "PATCH" ∨ method = "POST"
        then "form" else "query") := by
  constructor
  · intro method view mf vmap doc h
    simp [OpenApiSchemaGenerator.get_serializer_fields,
      OpenApiSchemaGenerator.get_serializer_class, h]
  · intro method view mfo f hf
    rw [OpenApiSchemaGenerator.get_serializer_fields] at hf
    rcases hsc : OpenApiSchemaGenerator.get_serializer_class view mfo with _ | sc
    · rw [hsc] at hf; exact absurd hf (List.not_mem_nil f)
    · rw [hsc] at hf
      rcases sc with cls | _ | ⟨vm, doc⟩ | _
      · have hf2 : f ∈ List.filterMap
            (OpenApiSchemaGenerator.serializerFieldOf
              (if method = "PUT" ∨ method = "PATCH" ∨ method = "POST"
               then "form" else "query") method) cls.fields := hf
        rcases List.mem_filterMap.mp hf2 with ⟨df, _, hdf⟩
        rw [OpenApiSchemaGenerator.serializerFieldOf] at hdf
        split at hdf
        · cases hdf
        · cases hdf; rfl
      · have hf2 : f ∈ [(⟨"data",
            (if method = "PUT" ∨ method = "PATCH" ∨ method = "POST"
             then "form" else "query"),
            true, Frag.arraySchema, none⟩ : FieldRec)] := hf
        rcases List.mem_singleton.mp hf2 with rfl
        rfl
      · exact absurd hf (List.not_mem_nil f)
      · exact absurd hf (List.not_mem_nil f)

/-- Claim C3 witness: the amended theorem's first conjunct applied to the
concrete version-mapped handler, and its second conjunct applied to the
list-serializer data field of a POST route. -/
theorem C3_request_fields_unresolved_witness :
    OpenApiSchemaGenerator.get_serializer_fields "GET" plainView (some exRequestMf) = [] :=
  C3_request_fields_unresolved.1 "GET" plainView exRequestMf exRequestMap none rfl

/-- Claim C9: a derived request field's required flag is the declared required
flag conjoined with the method not being PATCH; in particular every field
derived for a PATCH request has required false. -/
theorem C9_required_conjunction :
    (∀ (location method : String) (df : SField) (fr : FieldRec),
      OpenApiSchemaGenerator.serializerFieldOf location method df = some fr →
      fr.required = (df.required && !(method == "PATCH"))) ∧
    (∀ (location : String) (df : SField) (fr : FieldRec),
      OpenApiSchemaGenerator.serializerFieldOf location "PATCH" df = some fr →
      fr.required = false) := by
  have key : ∀ (location method : String) (df : SField) (fr : FieldRec),
      OpenApiSchemaGenerator.serializerFieldOf location method df = some fr →
      fr.required = (df.required && !(method == "PATCH")) := by
    intro location method df fr h
    rw [OpenApiSchemaGenerator.serializerFieldOf] at h
    split at h
    · cases h
    · cases h; rfl
  refine ⟨key, fun location df fr h => ?_⟩
  rw [key location "PATCH" df fr h]
  simp

/-- Claim C9 witness: a declared-required generic field derived for a PATCH
request comes out with required false. -/
theorem C9_required_conjunction_witness :
    OpenApiSchemaGenerator.serializerFieldOf "form" "PATCH"
      (.mk "x" true false none none .generic) =
      some ⟨"x", "form", false, .introspected "x", none⟩ ∧
    FieldRec.required ⟨"x", "form", false, .introspected "x", none⟩ = false :=
  ⟨rfl, C9_required_conjunction.2 "form" (.mk "x" true false none none .generic)
    ⟨"x", "form", false, .introspected "x", none⟩ rfl⟩

/-- Claim C8: the pagination shape synthesizer yields exactly the fields
results, next, previous and count for page-number and offset-limit pagers,
exactly results, next and previous for cursor pagers, and exactly results when
no pagination class is configured or the pager is of no known style; a
proxy-style pagination class is classified by its default pager, resolved
once. -/
theorem C8_pagination_shapes (v : View) (child : AnySerializerClass) :
    serializerFieldNames (OpenApiSchemaGenerator.get_paginator_serializer v child) =
      match v.pagination_class with
      | none => ["results"]
      | some p =>
        match p.default_pager.getD p.kind with
        | .pageNumber => ["results", "next", "previous", "count"]
        | .limitOffset => ["results", "next", "previous", "count"]
        | .cursor => ["results", "next", "previous"]
        | .otherPager => ["results"] := by
  rcases hp : v.pagination_class with _ | p
  · simp [OpenApiSchemaGenerator.get_paginator_serializer, hp, serializerFieldNames,
      SerializerClass.fields, SField.field_name]
  · rcases hd : p.default_pager.getD p.kind with _ | _ | _ | _ <;>
      simp [OpenApiSchemaGenerator.get_paginator_serializer, hp, hd, serializerFieldNames,
        SerializerClass.fields, SField.field_name]

theorem responseFieldLoop_name_mem (fl : List SField) (f : SField) (h : f ∈ fl) :
    f.field_name ∈ (responseFieldLoop fl).1.map FieldRec.name ∨
    f.field_name ∈ (responseFieldLoop fl).2.map Prod.fst := by
  induction fl with
  | nil => cases h
  | cons g rest ih =>
    rcases g with ⟨nm, rq, ro, lb, ht, kd⟩
    have hmem := List.mem_cons.mp h
    cases kd with
    | nested sub =>
      rcases hs : (get_response_object sub none).1 with _ | p
      · simp only [responseFieldLoop, hs]
        rcases hmem with rfl | hmem2
        · left; simp [SField.field_name]
        · rcases ih hmem2 with hl | hr
          · left; simp only [List.map_cons, List.mem_cons]; right; exact hl
          · right; exact hr
      · simp only [responseFieldLoop, hs]
        rcases hmem with rfl | hmem2
        · right; simp [SField.field_name]
        · rcases ih hmem2 with hl | hr
          · left; exact hl
          · right; simp only [List.map_cons, List.mem_cons]; right; exact hr
    | hiddenField =>
      simp only [responseFieldLoop]
      rcases hmem with rfl | hmem2
      · left; simp [SField.field_name]
      · rcases ih hmem2 with hl | hr
        · left; simp only [List.map_cons, List.mem_cons]; right; exact hl
        · right; exact hr
    | dictOrJson =>
      simp only [responseFieldLoop]
      rcases hmem with rfl | hmem2
      · left; simp [SField.field_name]
      · rcases ih hmem2 with hl | hr
        · left; simp only [List.map_cons, List.mem_cons]; right; exact hl
        · right; exact hr
    | listField c =>
      simp only [responseFieldLoop]
      rcases hmem with rfl | hmem2
      · left; simp [SField.field_name]
      · rcases ih hmem2 with hl | hr
        · left; simp only [List.map_cons, List.mem_cons]; right; exact hl
        · right; exact hr
    | generic =>
      simp only [responseFieldLoop]
      rcases hmem with rfl | hmem2
      · left; simp [SField.field_name]
      · rcases ih hmem2 with hl | hr
        · left; simp only [List.map_cons, List.mem_cons]; right; exact hl
        · right; exact hr

/-- Claim C10: response composition iterates every declared field of the
response descriptor — a field's name always reaches the composed schema's
properties map, so read-only and hidden fields are included; by contrast,
request field derivation drops read-only and hidden fields. -/
theorem C10_response_keeps_read_only_and_hidden :
    (∀ (cls : SerializerClass) (d : Option String) (f : SField), f ∈ cls.fields →
      ∃ ds props, (get_response_object cls d).1 = some (ds, props) ∧
        f.field_name ∈ props.map Prod.fst) ∧
    (∀ (location method : String) (df : SField),
      df.read_only = true ∨ df.kind = .hiddenField →
      OpenApiSchemaGenerator.serializerFieldOf location method df = none) := by
  constructor
  · intro cls d f h
    rcases cls with ⟨fl, meta⟩
    have hm := responseFieldLoop_name_mem fl f h
    rcases hr : responseFieldLoop fl with ⟨flat, nested⟩
    rw [hr] at hm
    simp only [get_response_object, hr]
    rcases flat with _ | ⟨x, xs⟩
    · simp only [get_parameters]
      rcases hm with hl | hr2
      · simp at hl
      · rcases nested with _ | ⟨n, ns⟩
        · simp at hr2
        · exact ⟨d, n :: ns, rfl, hr2⟩
    · simp only [get_parameters]
      refine ⟨d, _, rfl, ?_⟩
      apply dictUpdate_keys
      rcases hm with hl | hr2
      · left
        rw [List.map_map]
        exact hl
      · right; exact hr2
  · intro location method df hdf
    rcases hdf with hro | hk
    · simp [OpenApiSchemaGenerator.serializerFieldOf, hro]
    · simp [OpenApiSchemaGenerator.serializerFieldOf, isHiddenField, hk]

/-- Claim C10 witness: the read-only required field of `readOnlyCls` appears
in the composed response schema's properties. -/
theorem C10_response_keeps_read_only_and_hidden_witness :
    (SField.mk "secret" true true none none .generic) ∈ readOnlyCls.fields ∧
    ∃ ds props, (get_response_object readOnlyCls none).1 = some (ds, props) ∧
      SField.field_name (.mk "secret" true true none none .generic) ∈ props.map Prod.fst := by
  have hm : (SField.mk "secret" true true none none .generic) ∈ readOnlyCls.fields := by
    simp [readOnlyCls, SerializerClass.fields]
  exact ⟨hm, C10_response_keeps_read_only_and_hidden.1 readOnlyCls none _ hm⟩

/-- Claim C4 counterexample: two routes, the first of which fails link
CONSTRUCTION (its version-mapped response serializer has no entry matching
version "1.0").  The claim says the failing link alone is dropped and a
partial document is produced, but get_links propagates the construction error
and produces no document at all — only insertion failures are isolated. -/
theorem C4_construction_failure_counterexample :
    OpenApiSchemaGenerator.get_links exGen exFailEndpoints "1.0" =
      .error "Invalid request version 1.0" := rfl

/-- Claim C4 amended: if inserting the link for one route into the link tree
fails, that single link is dropped and assembly continues over the remaining
routes; a failure while constructing a link, however, is not isolated — it
propagates out of the assembly loop. -/
theorem C4_only_insertion_failures_isolated :
    (∀ (gen : Generator) (pathRoot version : String)
       (eps : List (String × String × View)) (links : LinkNode),
      (∀ p m v, (p, m, v) ∈ eps → v.has_permission = true →
        ∃ l, OpenApiSchemaGenerator.get_link gen p m v version = .ok l) →
      ∃ t, OpenApiSchemaGenerator.get_links_loop gen pathRoot version eps links = .ok t) ∧
    (∀ (gen : Generator) (pathRoot version p m : String) (v : View)
       (rest : List (String × String × View)) (links : LinkNode) (e : String),
      v.has_permission = true →
      OpenApiSchemaGenerator.get_link gen p m v version = .error e →
      OpenApiSchemaGenerator.get_links_loop gen pathRoot version ((p, m, v) :: rest) links =
        .error e) := by
  constructor
  · intro gen pathRoot version eps
    induction eps with
    | nil => exact fun links _ => ⟨links, rfl⟩
    | cons ep rest ih =>
      intro links h
      rcases ep with ⟨p, m, v⟩
      have hrest : ∀ p2 m2 v2, (p2, m2, v2) ∈ rest → v2.has_permission = true →
          ∃ l, OpenApiSchemaGenerator.get_link gen p2 m2 v2 version = .ok l :=
        fun p2 m2 v2 hm2 hp2 => h p2 m2 v2 (List.mem_cons_of_mem _ hm2) hp2
      by_cases hperm : v.has_permission = true
      · rcases h p m v (List.mem_cons_self _ _) hperm with ⟨l, hl⟩
        rw [OpenApiSchemaGenerator.get_links_loop, if_neg (by simp [hperm]), hl]
        rcases hins : insert_into links
            (get_keys (strDrop p (strLen pathRoot)) m) l with e | links2
        · simp only [hins]
          exact ih links hrest
        · simp only [hins]
          exact ih links2 hrest
      · rw [OpenApiSchemaGenerator.get_links_loop, if_pos (by simpa using hperm)]
        exact ih links hrest
  · intro gen pathRoot version p m v rest links e hperm herr
    rw [OpenApiSchemaGenerator.get_links_loop, if_neg (by simp [hperm]), herr]

/-- Claim C4 witness: the amended theorem's success conjunct applied to two
concrete routes whose derived key paths collide in the tree — every link
constructs successfully, the second insertion fails, and the loop still
returns a tree. -/
theorem C4_only_insertion_failures_isolated_witness :
    (∀ p m v, (p, m, v) ∈ exCollideEndpoints → v.has_permission = true →
      ∃ l, OpenApiSchemaGenerator.get_link exGen p m v "1.0" = .ok l) ∧
    ∃ t, OpenApiSchemaGenerator.get_links_loop exGen "/api/a" "1.0"
      exCollideEndpoints (.node []) = .ok t := by
  have h : ∀ p m v, (p, m, v) ∈ exCollideEndpoints → v.has_permission = true →
      ∃ l, OpenApiSchemaGenerator.get_link exGen p m v "1.0" = .ok l := by
    intro p m v hm _
    rcases List.mem_cons.mp hm with h1 | h2
    · obtain ⟨rfl, rfl, rfl⟩ : p = "/api/a/" ∧ m = "GET" ∧ v = plainView := by
        simpa using h1
      exact ⟨_, rfl⟩
    · obtain ⟨rfl, rfl, rfl⟩ : p = "/api/a/get/" ∧ m = "GET" ∧ v = plainView := by
        simpa using List.mem_singleton.mp h2
      exact ⟨_, rfl⟩
  exact ⟨h, C4_only_insertion_failures_isolated.1 exGen "/api/a" "1.0"
    exCollideEndpoints (.node []) h⟩

end DrfOpenapi
